import Mathlib

/-!
Shallow embedding of the amon-hen narrative-intelligence pipeline
(src/amon_hen) and proofs of the behavioural claims about it.

Modelling conventions, used throughout:
* Python floats are modelled as exact rationals where the code only adds,
  multiplies, divides and compares (storage sums, Jaccard overlap,
  sentiment clamping); real-number square roots (numpy norms) are modelled
  in the real field.
* UTC datetimes are modelled as microseconds since the Unix epoch
  (a natural number).  Python `datetime.isoformat` round-trips aware
  datetimes exactly, and lexicographic order on the produced strings
  agrees with chronological order for a fixed UTC offset, so TEXT columns
  holding ISO timestamps are modelled by the numeric timestamp itself.
* SQLite tables are modelled as Lean lists of row structures; JSON-blob
  columns are modelled structurally by the record that `json.dumps`
  serialises.  A failed INSERT (constraint violation) rolls back, which is
  modelled by returning the unchanged store together with the error.
-/

namespace AmonHen

/-- Microseconds in one UTC calendar day. -/
def usPerDay : Nat := 86400000000

-- ---------------------------------------------------------------------
-- models.py : enums and pydantic models
-- ---------------------------------------------------------------------

/-- models.SourceType. -/
inductive SourceType where
  | rss | gdelt | bluesky | reddit
deriving DecidableEq, Repr

/-- String value of a SourceType member (the .value attribute). -/
def SourceType.value : SourceType → String
  | .rss => "rss"
  | .gdelt => "gdelt"
  | .bluesky => "bluesky"
  | .reddit => "reddit"

/-- models.EntityType. -/
inductive EntityType where
  | person | org | place | event
deriving DecidableEq, Repr

/-- String value of an EntityType member. -/
def EntityType.value : EntityType → String
  | .person => "person"
  | .org => "org"
  | .place => "place"
  | .event => "event"

/-- The enum constructor EntityType(s): looks a member up by value,
raising (modelled as none) when the value is unknown. -/
def entityTypeOfValue (s : String) : Option EntityType :=
  if s = "person" then some .person
  else if s = "org" then some .org
  else if s = "place" then some .place
  else if s = "event" then some .event
  else none

/-- models.EntityRole. -/
inductive EntityRole where
  | subject | target | source | location | mentioned
deriving DecidableEq, Repr

/-- String value of an EntityRole member. -/
def EntityRole.value : EntityRole → String
  | .subject => "subject"
  | .target => "target"
  | .source => "source"
  | .location => "location"
  | .mentioned => "mentioned"

/-- The enum constructor EntityRole(s). -/
def entityRoleOfValue (s : String) : Option EntityRole :=
  if s = "subject" then some .subject
  else if s = "target" then some .target
  else if s = "source" then some .source
  else if s = "location" then some .location
  else if s = "mentioned" then some .mentioned
  else none

/-- models.ClusterStatus. -/
inductive ClusterStatus where
  | emerging | active | fading | dead
deriving DecidableEq, Repr

/-- String value of a ClusterStatus member. -/
def ClusterStatus.value : ClusterStatus → String
  | .emerging => "emerging"
  | .active => "active"
  | .fading => "fading"
  | .dead => "dead"

/-- The enum constructor ClusterStatus(s). -/
def clusterStatusOfValue (s : String) : Option ClusterStatus :=
  if s = "emerging" then some .emerging
  else if s = "active" then some .active
  else if s = "fading" then some .fading
  else if s = "dead" then some .dead
  else none

/-- models.Entity. -/
structure Entity where
  name : String
  type : EntityType
  role : EntityRole
  aliases : List String
deriving DecidableEq, Repr

/-- models.RawItem (the raw_metadata map is opaque to everything the
claims touch and is omitted). -/
structure RawItem where
  id : String
  source_type : SourceType
  source_name : String
  source_url : String
  title : Option String
  content_text : String
  author : Option String
  published_at : Nat
  ingested_at : Nat
  language : String
deriving DecidableEq, Repr

/-- models.EnrichmentResult. -/
structure EnrichmentResult where
  summary : String
  entities : List Entity
  claims : List String
  framing : String
  sentiment : ℚ
  topic_tags : List String
deriving DecidableEq, Repr

/-- models.EnrichedItem. -/
structure EnrichedItem where
  id : String
  source_type : SourceType
  source_name : String
  source_url : String
  title : Option String
  published_at : Nat
  ingested_at : Nat
  language : String
  summary : String
  entities : List Entity
  claims : List String
  framing : String
  sentiment : ℚ
  topic_tags : List String
  embedding_id : String
  embedding_model : String
  cluster_id : Option String
  cluster_label : Option String
  enrichment_model : String
  enrichment_cost_usd : ℚ
deriving DecidableEq, Repr

/-- models.CostLogEntry. -/
structure CostLogEntry where
  item_id : String
  model : String
  input_tokens : Nat
  output_tokens : Nat
  cost_usd : ℚ
  timestamp : Nat
deriving DecidableEq, Repr

/-- models.NarrativeCluster.  The clustering pipeline attaches a
transient list of member ids to each freshly built cluster (the
Python code sets a dynamic attribute for it); it is modelled as the
extra field member_ids, empty for clusters that never went through
the build step. -/
structure NarrativeCluster where
  id : String
  label : String
  summary : String
  item_count : Nat
  first_seen : Nat
  last_updated : Nat
  centroid : List ℚ
  source_distribution : List (String × Nat)
  sentiment_distribution : List (String × Nat)
  key_entities : List String
  key_claims : List String
  status : ClusterStatus
  parent_cluster_id : Option String
  member_ids : List String
deriving DecidableEq, Repr

-- ---------------------------------------------------------------------
-- enrichment/llm.py : the JSON-output parser
-- ---------------------------------------------------------------------

/-- One entity object inside the decoded LLM JSON.  Fields are optional
because dict.get is used with defaults; values are modelled as already
well-typed (a wrongly typed value is outside the behaviour the claims
quantify over). -/
structure RawEntityJson where
  name : Option String
  type : Option String
  role : Option String
  aliases : Option (List String)
deriving DecidableEq, Repr

/-- The decoded top-level JSON object handed to _parse_enrichment_json
(after json.loads of the fence-stripped response text). -/
structure RawEnrichment where
  summary : Option String
  entities : Option (List RawEntityJson)
  claims : Option (List String)
  framing : Option String
  sentiment : Option ℚ
  topic_tags : Option (List String)
deriving DecidableEq, Repr

/-- Body of the per-entity try block in _parse_enrichment_json: building
an Entity raises KeyError when the name is missing and ValueError when
the type or role value is not an enum member; both are caught and the
entity is skipped (none). -/
def parseEntity (e : RawEntityJson) : Option Entity :=
  match e.name with
  | none => none
  | some n =>
    match entityTypeOfValue (e.type.getD "person") with
    | none => none
    | some t =>
      match entityRoleOfValue (e.role.getD "mentioned") with
      | none => none
      | some r => some ⟨n, t, r, e.aliases.getD []⟩

/-- llm._parse_enrichment_json, after JSON decoding: entity objects that
raise are dropped, sentiment is clamped to [-1, 1], missing optional
fields default. -/
def parse_enrichment_json (data : RawEnrichment) : EnrichmentResult :=
  { summary := data.summary.getD ""
    entities := (data.entities.getD []).filterMap parseEntity
    claims := data.claims.getD []
    framing := data.framing.getD ""
    sentiment := max (-1) (min 1 (data.sentiment.getD 0))
    topic_tags := data.topic_tags.getD [] }

-- ---------------------------------------------------------------------
-- storage/sqlite.py : the relational metadata store
-- ---------------------------------------------------------------------

/-- The enum constructor SourceType(s). -/
def sourceTypeOfValue (s : String) : Option SourceType :=
  if s = "rss" then some .rss
  else if s = "gdelt" then some .gdelt
  else if s = "bluesky" then some .bluesky
  else if s = "reddit" then some .reddit
  else none

/-- One entity object inside the entities_json column: the structural
content of json.dumps applied to Entity.model_dump(). -/
structure EntityJson where
  name : String
  type : String
  role : String
  aliases : List String
deriving DecidableEq, Repr

/-- Serialisation of one Entity performed by insert_item. -/
def Entity.toJson (e : Entity) : EntityJson :=
  ⟨e.name, e.type.value, e.role.value, e.aliases⟩

/-- Deserialisation of one entity object performed by _row_to_item;
an unknown enum value raises, modelled as none. -/
def entityOfJson (j : EntityJson) : Option Entity :=
  match entityTypeOfValue j.type, entityRoleOfValue j.role with
  | some t, some r => some ⟨j.name, t, r, j.aliases⟩
  | _, _ => none

/-- Deserialisation of the entities_json list, failing when any element
fails. -/
def decodeEntities : List EntityJson → Option (List Entity)
  | [] => some []
  | j :: js =>
    match entityOfJson j, decodeEntities js with
    | some e, some es => some (e :: es)
    | _, _ => none

/-- One row of the items table (TEXT timestamp columns are modelled by
the numeric timestamp, JSON-blob columns structurally). -/
structure ItemRow where
  id : String
  source_type : String
  source_name : String
  source_url : String
  title : Option String
  published_at : Nat
  ingested_at : Nat
  language : String
  summary : String
  entities : List EntityJson
  claims : List String
  framing : String
  sentiment : ℚ
  topic_tags : List String
  embedding_id : String
  embedding_model : String
  cluster_id : Option String
  cluster_label : Option String
  enrichment_model : String
  enrichment_cost_usd : ℚ
  archived : Bool
deriving DecidableEq, Repr

/-- The row written by insert_item: the archived column is absent from
the INSERT list, so it takes its schema DEFAULT 0. -/
def itemToRow (item : EnrichedItem) : ItemRow :=
  { id := item.id
    source_type := item.source_type.value
    source_name := item.source_name
    source_url := item.source_url
    title := item.title
    published_at := item.published_at
    ingested_at := item.ingested_at
    language := item.language
    summary := item.summary
    entities := item.entities.map Entity.toJson
    claims := item.claims
    framing := item.framing
    sentiment := item.sentiment
    topic_tags := item.topic_tags
    embedding_id := item.embedding_id
    embedding_model := item.embedding_model
    cluster_id := item.cluster_id
    cluster_label := item.cluster_label
    enrichment_model := item.enrichment_model
    enrichment_cost_usd := item.enrichment_cost_usd
    archived := false }

/-- One row of the cluster_membership table. -/
structure MembershipRow where
  item_id : String
  cluster_id : String
  assigned_at : Nat
deriving DecidableEq, Repr

/-- One row of the clusters table. -/
structure ClusterRow where
  id : String
  label : String
  summary : String
  item_count : Nat
  first_seen : Nat
  last_updated : Nat
  centroid : List ℚ
  source_distribution : List (String × Nat)
  sentiment_distribution : List (String × Nat)
  key_entities : List String
  key_claims : List String
  status : String
  parent_cluster_id : Option String
deriving DecidableEq, Repr

/-- The SQLite database state: the tables the claims touch (digests and
source_status are not involved in any claim and are omitted).  The
cost_log row carries exactly the CostLogEntry fields (its AUTOINCREMENT
key is never read). -/
structure Store where
  items : List ItemRow
  clusters : List ClusterRow
  memberships : List MembershipRow
  costLog : List CostLogEntry
deriving DecidableEq, Repr

/-- A constraint violation surfaced by SQLite (sqlite3.IntegrityError);
the enclosing transaction rolls back, so the store is returned
unchanged alongside the error. -/
inductive DbError where
  | integrityError
deriving DecidableEq, Repr

/-- SQLiteStore.insert_item.  The items table has PRIMARY KEY id and a
UNIQUE constraint on source_url; a violation of either raises and rolls
back. -/
def insert_item (s : Store) (item : EnrichedItem) : Option DbError × Store :=
  if ∃ r ∈ s.items, r.id = item.id ∨ r.source_url = item.source_url then
    (some .integrityError, s)
  else
    (none, { s with items := s.items ++ [itemToRow item] })

/-- SQLiteStore._row_to_item.  A row whose stored enum values do not
decode raises, modelled as none. -/
def row_to_item (r : ItemRow) : Option EnrichedItem :=
  match sourceTypeOfValue r.source_type, decodeEntities r.entities with
  | some st, some es =>
    some
      { id := r.id
        source_type := st
        source_name := r.source_name
        source_url := r.source_url
        title := r.title
        published_at := r.published_at
        ingested_at := r.ingested_at
        language := r.language
        summary := r.summary
        entities := es
        claims := r.claims
        framing := r.framing
        sentiment := r.sentiment
        topic_tags := r.topic_tags
        embedding_id := r.embedding_id
        embedding_model := r.embedding_model
        cluster_id := r.cluster_id
        cluster_label := r.cluster_label
        enrichment_model := r.enrichment_model
        enrichment_cost_usd := r.enrichment_cost_usd }
  | _, _ => none

/-- SQLiteStore.get_item: SELECT by id, then row conversion.  A missing
row yields none; an unconvertible row raises, also modelled none. -/
def get_item (s : Store) (item_id : String) : Option EnrichedItem :=
  (s.items.find? (fun r => r.id == item_id)).bind row_to_item

/-- Row-level WHERE clause of get_items: archived = 0, optional
published_at lower bound, optional source_type match. -/
def getItemsPred (since : Option Nat) (stype : Option String)
    (r : ItemRow) : Bool :=
  !r.archived &&
    (match since with | none => true | some t => decide (t ≤ r.published_at)) &&
    (match stype with | none => true | some st => r.source_type == st)

/-- Rows returned by SQLiteStore.get_items before conversion: filtered,
ordered by published_at descending, limited.  The SQL ORDER BY leaves
the order of ties unspecified; a stable sort is one valid refinement. -/
def get_items_rows (s : Store) (since : Option Nat) (limit : Nat)
    (stype : Option String) : List ItemRow :=
  ((s.items.filter (getItemsPred since stype)).mergeSort
      (fun a b => b.published_at ≤ a.published_at)).take limit

/-- Conversion of a list of rows, failing when any row fails. -/
def decodeRows : List ItemRow → Option (List EnrichedItem)
  | [] => some []
  | r :: rs =>
    match row_to_item r, decodeRows rs with
    | some it, some its => some (it :: its)
    | _, _ => none

/-- SQLiteStore.get_items. -/
def get_items (s : Store) (since : Option Nat) (limit : Nat)
    (stype : Option String) : Option (List EnrichedItem) :=
  decodeRows (get_items_rows s since limit stype)

/-- SQLiteStore.item_url_exists. -/
def item_url_exists (s : Store) (url : String) : Bool :=
  decide (∃ r ∈ s.items, r.source_url = url)

/-- SQLiteStore.update_item_cluster. -/
def update_item_cluster (s : Store) (item_id cluster_id cluster_label : String) :
    Store :=
  { s with
    items := s.items.map fun r =>
      if r.id = item_id then
        { r with cluster_id := some cluster_id, cluster_label := some cluster_label }
      else r }

/-- Rows returned by SQLiteStore.get_items_by_cluster before
conversion: cluster_id match, non-archived, publication-descending. -/
def get_items_by_cluster_rows (s : Store) (cid : String) : List ItemRow :=
  (s.items.filter fun r => r.cluster_id == some cid && !r.archived).mergeSort
    (fun a b => b.published_at ≤ a.published_at)

/-- SQLiteStore.get_items_by_cluster. -/
def get_items_by_cluster (s : Store) (cid : String) :
    Option (List EnrichedItem) :=
  decodeRows (get_items_by_cluster_rows s cid)

/-- SQLiteStore.upsert_cluster: INSERT OR REPLACE by primary key id. -/
def upsert_cluster (s : Store) (row : ClusterRow) : Store :=
  if ∃ r ∈ s.clusters, r.id = row.id then
    { s with clusters := s.clusters.map fun r => if r.id = row.id then row else r }
  else
    { s with clusters := s.clusters ++ [row] }

/-- SQLiteStore.get_active_clusters: status emerging or active, ordered
by item_count descending (stable refinement of the SQL order). -/
def get_active_clusters_rows (s : Store) : List ClusterRow :=
  (s.clusters.filter fun r => r.status == "emerging" || r.status == "active").mergeSort
    (fun a b => b.item_count ≤ a.item_count)

/-- SQLiteStore.update_cluster_status. -/
def update_cluster_status (s : Store) (cid : String) (status : String) : Store :=
  { s with
    clusters := s.clusters.map fun r =>
      if r.id = cid then { r with status := status } else r }

/-- SQLiteStore.set_cluster_membership: INSERT OR REPLACE on the
primary key (item_id, cluster_id). -/
def set_cluster_membership (s : Store) (item_id cluster_id : String)
    (now : Nat) : Store :=
  if ∃ m ∈ s.memberships, m.item_id = item_id ∧ m.cluster_id = cluster_id then
    { s with
      memberships := s.memberships.map fun m =>
        if m.item_id = item_id ∧ m.cluster_id = cluster_id then
          ⟨item_id, cluster_id, now⟩
        else m }
  else
    { s with memberships := s.memberships ++ [⟨item_id, cluster_id, now⟩] }

/-- SQLiteStore.clear_cluster_memberships. -/
def clear_cluster_memberships (s : Store) : Store :=
  { s with memberships := [] }

/-- SQLiteStore.log_cost: append-only insert into cost_log. -/
def log_cost (s : Store) (e : CostLogEntry) : Store :=
  { s with costLog := s.costLog ++ [e] }

/-- End-of-day offset used by get_daily_cost: 23:59:59 after midnight,
in microseconds (day_start.replace leaves microsecond at 0). -/
def dayEndOffset : Nat := 86399000000

/-- SQLiteStore.get_daily_cost: sum of cost_usd over rows whose ISO
timestamp lies between the instant's 00:00:00 and 23:59:59 (comparison
of same-offset ISO strings coincides with numeric comparison). -/
def get_daily_cost (s : Store) (date : Nat) : ℚ :=
  ((s.costLog.filter fun e =>
      decide (date / usPerDay * usPerDay ≤ e.timestamp) &&
      decide (e.timestamp ≤ date / usPerDay * usPerDay + dayEndOffset)).map
    (fun e => e.cost_usd)).sum

-- ---------------------------------------------------------------------
-- sources/__init__.py : batch deduplication
-- ---------------------------------------------------------------------

/-- sources.deduplicate: keep the items whose source_url is not already
present in the SQLite store, in input order. -/
def deduplicate (items : List RawItem) (store : Store) : List RawItem :=
  match items with
  | [] => []
  | item :: rest =>
    if item_url_exists store item.source_url then deduplicate rest store
    else item :: deduplicate rest store

-- ---------------------------------------------------------------------
-- intelligence/clustering.py : identity matching of new clusters
-- ---------------------------------------------------------------------

/-- Jaccard overlap used by _match_clusters:
len(new and prev) / len(new or prev), computed in floats, modelled
exactly in the rationals. -/
def jaccard (a b : Finset String) : ℚ :=
  ((a ∩ b).card : ℚ) / ((a ∪ b).card : ℚ)

/-- Member-id set of a previous cluster as _match_clusters builds it
from get_items_by_cluster (the set of the returned item ids). -/
def prev_member_set (s : Store) (cid : String) : Finset String :=
  ((get_items_by_cluster_rows s cid).map (fun r => r.id)).toFinset

/-- One step of the inner loop of _match_clusters updating
(best_overlap, best_prev_id); prev clusters already claimed or with an
empty member set are skipped, and a strictly larger overlap replaces
the best.  pm is the prev_members mapping from prev cluster id to its
member-id set. -/
def matchStep (pm : String → Finset String) (used : Finset String)
    (ncm : Finset String) (acc : ℚ × Option String) (pc : NarrativeCluster) :
    ℚ × Option String :=
  if pc.id ∈ used then acc
  else if pm pc.id = ∅ then acc
  else if jaccard ncm (pm pc.id) > acc.1 then (jaccard ncm (pm pc.id), some pc.id)
  else acc

/-- The inner loop of _match_clusters over all previous clusters,
starting from best_overlap = 0.0, best_prev_id = None. -/
def findBest (pm : String → Finset String) (used : Finset String)
    (ncm : Finset String) (prevs : List NarrativeCluster) : ℚ × Option String :=
  prevs.foldl (matchStep pm used ncm) (0, none)

/-- One iteration of the outer loop of _match_clusters for a single new
cluster: when the best overlap exceeds 0.7 and the best prev id is
truthy (a non-None, non-empty string), the prev id is inherited, the
status becomes active, first_seen is adopted from the first previous
cluster carrying that id, and the prev id is claimed. -/
def matchOne (pm : String → Finset String) (prevs : List NarrativeCluster)
    (used : Finset String) (nc : NarrativeCluster) :
    NarrativeCluster × Finset String :=
  if nc.member_ids.toFinset = ∅ then (nc, used)
  else
    match findBest pm used nc.member_ids.toFinset prevs with
    | (b, some pid) =>
      if b > 7/10 ∧ pid ≠ "" then
        ({ nc with
            id := pid
            status := .active
            first_seen :=
              ((prevs.find? (fun pc => pc.id == pid)).map
                (fun pc => pc.first_seen)).getD nc.first_seen },
          insert pid used)
      else (nc, used)
    | (_, none) => (nc, used)

/-- The outer loop of _match_clusters, threading the used_prev set. -/
def matchGo (pm : String → Finset String) (prevs : List NarrativeCluster) :
    List NarrativeCluster → Finset String → List NarrativeCluster
  | [], _ => []
  | nc :: rest, used =>
    (matchOne pm prevs used nc).1 ::
      matchGo pm prevs rest (matchOne pm prevs used nc).2

/-- ClusteringPipeline._match_clusters: mutates the new clusters in
place in Python, modelled as returning the updated list.  pm stands for
the prev_members dictionary built from the store; the run entry point
passes prev_member_set. -/
def match_clusters (pm : String → Finset String)
    (prevs ncs : List NarrativeCluster) : List NarrativeCluster :=
  if prevs = [] then ncs else matchGo pm prevs ncs ∅

/-- Relation between a cluster built by the second run and its matched
output: some previous cluster holds exactly the same member-id set, and
the output is the input with the previous id inherited, status active
and the previous first_seen adopted. -/
def matchedAs (pm : String → Finset String) (prevs : List NarrativeCluster)
    (nc res : NarrativeCluster) : Prop :=
  ∃ pc ∈ prevs, pm pc.id = nc.member_ids.toFinset ∧
    res = { nc with id := pc.id, status := .active, first_seen := pc.first_seen }

-- ---------------------------------------------------------------------
-- storage/vectors.py : the vector index
-- ---------------------------------------------------------------------

/-- One point of the Qdrant collection: id, vector, and the five
payload fields the enricher writes. -/
structure VPoint where
  id : String
  vector : List ℚ
  source_type : String
  source_name : String
  published_at : Nat
  title : String
  summary : String
deriving DecidableEq, Repr

/-- VectorStore.upsert_item: id collisions overwrite. -/
def upsert_item_vec (vs : List VPoint) (p : VPoint) : List VPoint :=
  if ∃ q ∈ vs, q.id = p.id then
    vs.map fun q => if q.id = p.id then p else q
  else vs ++ [p]

/-- VectorStore.get_all_vectors: full scroll with the optional
published_at ≥ since payload filter, returning (point_ids, vectors) in
collection order. -/
def get_all_vectors (vs : List VPoint) (since : Option Nat) :
    List String × List (List ℚ) :=
  match since with
  | none => (vs.map (fun p => p.id), vs.map (fun p => p.vector))
  | some t =>
    ((vs.filter fun p => decide (t ≤ p.published_at)).map (fun p => p.id),
     (vs.filter fun p => decide (t ≤ p.published_at)).map (fun p => p.vector))

/-- VectorStore.get_vectors_by_ids: the id-to-vector map for the
requested ids, absent ids silently omitted. -/
def get_vectors_by_ids (vs : List VPoint) (ids : List String) :
    String → Option (List ℚ) :=
  fun pid =>
    if pid ∈ ids then (vs.find? fun p => p.id == pid).map (fun p => p.vector)
    else none

-- ---------------------------------------------------------------------
-- enrichment/__init__.py : the per-item enrichment worker
-- ---------------------------------------------------------------------

/-- Combined mutable state of the two stores as the enricher sees it. -/
structure PipelineState where
  sqlite : Store
  vectors : List VPoint
deriving DecidableEq, Repr

/-- One persistence side effect of _process_one, in issue order. -/
inductive Effect where
  | logCost (e : CostLogEntry)
  | insertItem (r : ItemRow)
  | upsertVector (p : VPoint)
deriving DecidableEq, Repr

/-- The EnrichedItem _process_one builds after a successful LLM call
and embedding (cluster fields start at None, as the pydantic
defaults). -/
def buildEnrichedItem (item : RawItem) (result : EnrichmentResult)
    (cost_entry : CostLogEntry) (embedding_model : String) : EnrichedItem :=
  { id := item.id
    source_type := item.source_type
    source_name := item.source_name
    source_url := item.source_url
    title := item.title
    published_at := item.published_at
    ingested_at := item.ingested_at
    language := item.language
    summary := result.summary
    entities := result.entities
    claims := result.claims
    framing := result.framing
    sentiment := result.sentiment
    topic_tags := result.topic_tags
    embedding_id := item.id
    embedding_model := embedding_model
    cluster_id := none
    cluster_label := none
    enrichment_model := cost_entry.model
    enrichment_cost_usd := cost_entry.cost_usd }

/-- The payload point _process_one upserts into the vector store. -/
def buildVPoint (item : RawItem) (result : EnrichmentResult)
    (vector : List ℚ) : VPoint :=
  ⟨item.id, vector, item.source_type.value, item.source_name,
    item.published_at, item.title.getD "", result.summary⟩

/-- enrich_items._process_one for a single raw item.  The LLM call and
the embedding call are external effects, modelled as oracle inputs
(none denotes the raised exception the code catches); cancellation and
the semaphore do not change single-item behaviour.  Returns the
reported result, the final state, and the ordered list of successful
persistence effects. -/
def processOne (track_costs : Bool) (budget : ℚ) (now : Nat)
    (llm : Option (EnrichmentResult × CostLogEntry))
    (embed : EnrichmentResult → Option (List ℚ))
    (embedding_model : String) (st : PipelineState) (item : RawItem) :
    Option EnrichedItem × PipelineState × List Effect :=
  if budget ≤ get_daily_cost st.sqlite now then (none, st, [])
  else
    match llm with
    | none => (none, st, [])
    | some (result, cost_entry) =>
      let s1 := if track_costs then log_cost st.sqlite cost_entry else st.sqlite
      let t1 : List Effect := if track_costs then [.logCost cost_entry] else []
      match embed result with
      | none => (none, ⟨s1, st.vectors⟩, t1)
      | some vector =>
        match insert_item s1 (buildEnrichedItem item result cost_entry embedding_model) with
        | (some _, s2) => (none, ⟨s2, st.vectors⟩, t1)
        | (none, s2) =>
          (some (buildEnrichedItem item result cost_entry embedding_model),
            ⟨s2, upsert_item_vec st.vectors (buildVPoint item result vector)⟩,
            t1 ++ [.insertItem (itemToRow (buildEnrichedItem item result cost_entry embedding_model)),
                   .upsertVector (buildVPoint item result vector)])

-- ---------------------------------------------------------------------
-- intelligence/clustering.py : the full run
-- ---------------------------------------------------------------------

/-- Append a value to the entry of a key in an insertion-ordered
association list, creating the entry at the end when absent (Python
dict.setdefault(k, []).append(v)). -/
def addToGroup {κ ν : Type} [DecidableEq κ]
    (acc : List (κ × List ν)) (key : κ) (v : ν) : List (κ × List ν) :=
  match acc with
  | [] => [(key, [v])]
  | (k, vs) :: rest =>
    if k = key then (k, vs ++ [v]) :: rest
    else (k, vs) :: addToGroup rest key v

/-- Bump the count of a key in an insertion-ordered association list
(Python dict counting with get default 0). -/
def addCount (acc : List (String × Nat)) (key : String) : List (String × Nat) :=
  match acc with
  | [] => [(key, 1)]
  | (k, c) :: rest =>
    if k = key then (k, c + 1) :: rest
    else (k, c) :: addCount rest key

/-- Counting by key in first-occurrence order. -/
def countBy (keys : List String) : List (String × Nat) :=
  keys.foldl addCount []

/-- Cluster-label groups of HDBSCAN output: label value to list of
point indices, in first-occurrence order, noise label -1 skipped. -/
def groupLabels (labels : List Int) : List (Int × List Nat) :=
  labels.enum.foldl
    (fun acc iv => if iv.2 = -1 then acc else addToGroup acc iv.2 iv.1) []

/-- Componentwise sum of two vectors (numpy broadcast addition on
equal-length rows; ragged input is outside the behaviour used). -/
def addVec (a b : List ℚ) : List ℚ := List.zipWith (· + ·) a b

/-- Arithmetic mean of a nonempty list of vectors (numpy mean along
axis 0); empty input gives the empty vector. -/
def meanVec (vs : List (List ℚ)) : List ℚ :=
  match vs with
  | [] => []
  | v :: rest => (rest.foldl addVec v).map (fun x => x / (vs.length : ℚ))

/-- Squared Euclidean distance.  The code sorts by np.linalg.norm of
the differences; sorting by the squared norm yields the same order
(squaring is monotone on nonnegatives). -/
def sqDist (a b : List ℚ) : ℚ :=
  (List.zipWith (fun x y => (x - y) * (x - y)) a b).sum

/-- Order-preserving first-occurrence deduplication
(dict.fromkeys). -/
def dedupFirstAux : List String → List String → List String
  | [], _ => []
  | x :: xs, seen =>
    if x ∈ seen then dedupFirstAux xs seen
    else x :: dedupFirstAux xs (x :: seen)

/-- dict.fromkeys-style deduplication preserving first occurrence. -/
def dedupFirst (l : List String) : List String := dedupFirstAux l []

/-- clustering._bin_sentiment: the five fixed buckets, intervals open
below and closed above, in the dict-literal key order. -/
def bin_sentiment (values : List ℚ) : List (String × Nat) :=
  [("very_negative", (values.filter fun v => decide (v ≤ -6/10)).length),
   ("negative", (values.filter fun v =>
      decide (-6/10 < v) && decide (v ≤ -2/10)).length),
   ("neutral", (values.filter fun v =>
      decide (-2/10 < v) && decide (v ≤ 2/10)).length),
   ("positive", (values.filter fun v =>
      decide (2/10 < v) && decide (v ≤ 6/10)).length),
   ("very_positive", (values.filter fun v => decide (6/10 < v)).length)]

/-- Earliest publication time of the members (Python min over a
nonempty generator; 0 for the never-taken empty case). -/
def minPub (items : List EnrichedItem) : Nat :=
  match items.map (fun it => it.published_at) with
  | [] => 0
  | t :: ts => ts.foldl min t

/-- Steps 5 of ClusteringPipeline.run for one non-noise label group:
centroid, representatives, labelling, distributions, key entities and
claims, first_seen; none when no member has a metadata row.  The
labelling LLM round trip with its fallback is the labeler oracle. -/
def buildCluster (labeler : List EnrichedItem → String × String)
    (freshId : String) (now : Nat) (point_ids : List String)
    (X : List (List ℚ)) (all_items : String → Option EnrichedItem)
    (indices : List Nat) : Option NarrativeCluster :=
  let member_ids := indices.filterMap (fun i => point_ids[i]?)
  let member_items := member_ids.filterMap all_items
  if member_items = [] then none
  else
    let cluster_vecs := indices.filterMap (fun i => X[i]?)
    let centroid := meanVec cluster_vecs
    let dists := cluster_vecs.map (fun v => sqDist v centroid)
    let closest := ((List.range cluster_vecs.length).mergeSort
      (fun i j => dists.getD i 0 ≤ dists.getD j 0)).take 5
    let representative_items := closest.filterMap (fun i => member_items[i]?)
    let ls := labeler representative_items
    some
      { id := freshId
        label := ls.1
        summary := ls.2
        item_count := member_items.length
        first_seen := minPub member_items
        last_updated := now
        centroid := centroid
        source_distribution := countBy (member_items.map (fun it => it.source_type.value))
        sentiment_distribution := bin_sentiment (member_items.map (fun it => it.sentiment))
        key_entities := ((countBy (member_items.flatMap
          (fun it => it.entities.map (fun e => e.name)))).mergeSort
            (fun a b => b.2 ≤ a.2)).map (fun kv => kv.1) |>.take 10
        key_claims := (dedupFirst (member_items.flatMap (fun it => it.claims))).take 10
        status := .emerging
        parent_cluster_id := none
        member_ids := member_ids }

/-- The clusters-table row written by upsert_cluster for a
NarrativeCluster. -/
def clusterToRow (c : NarrativeCluster) : ClusterRow :=
  ⟨c.id, c.label, c.summary, c.item_count, c.first_seen, c.last_updated,
    c.centroid, c.source_distribution, c.sentiment_distribution,
    c.key_entities, c.key_claims, c.status.value, c.parent_cluster_id⟩

/-- Decoding of a clusters-table row (_row_to_cluster); stored status
values always decode because they are written from enum values. -/
def row_to_cluster (r : ClusterRow) : Option NarrativeCluster :=
  (clusterStatusOfValue r.status).map fun st =>
    ⟨r.id, r.label, r.summary, r.item_count, r.first_seen, r.last_updated,
      r.centroid, r.source_distribution, r.sentiment_distribution,
      r.key_entities, r.key_claims, st, r.parent_cluster_id, []⟩

/-- SQLiteStore.get_active_clusters as the pipeline consumes it. -/
def get_active_clusters (s : Store) : List NarrativeCluster :=
  (get_active_clusters_rows s).filterMap row_to_cluster

/-- The clustering configuration fields the run reads. -/
structure ClusteringConfig where
  min_cluster_size : Nat
  min_samples : Nat
  rolling_window_days : Nat
deriving DecidableEq, Repr

/-- Steps 2 through 7 of ClusteringPipeline.run (only reached when the
window holds at least min_cluster_size points): cluster the vectors,
build, match against the previous active set, clear memberships,
persist clusters, memberships and item updates, and mark unclaimed
previous clusters fading. -/
def runBody (now : Nat) (hdbscan : List (List ℚ) → List Int)
    (labeler : List EnrichedItem → String × String)
    (freshIds : Nat → String) (st : PipelineState)
    (point_ids : List String) (X : List (List ℚ)) :
    List NarrativeCluster × PipelineState :=
  let groups := groupLabels (hdbscan X)
  let new_clusters := groups.enum.filterMap fun kg =>
    buildCluster labeler (freshIds kg.1) now point_ids X
      (fun mid => get_item st.sqlite mid) kg.2.2
  let previous := get_active_clusters st.sqlite
  let matched := match_clusters (prev_member_set st.sqlite) previous new_clusters
  let s1 := clear_cluster_memberships st.sqlite
  let s2 := matched.foldl
    (fun s c =>
      c.member_ids.foldl
        (fun s2 mid =>
          update_item_cluster (set_cluster_membership s2 mid c.id now)
            mid c.id c.label)
        (upsert_cluster s (clusterToRow c)))
    s1
  let new_ids : List String := matched.map (fun c => c.id)
  let s3 := previous.foldl
    (fun (s : Store) pc =>
      if pc.id ∈ new_ids then s
      else update_cluster_status s pc.id "fading")
    s2
  (matched, ⟨s3, st.vectors⟩)

/-- ClusteringPipeline.run: pull the rolling window and either return
with no clusters (window smaller than min_cluster_size) or run the full
cycle.  HDBSCAN and the labelling LLM are external, modelled as
oracles; fresh cluster uuids are the freshIds oracle. -/
def run (cfg : ClusteringConfig) (now : Nat)
    (hdbscan : List (List ℚ) → List Int)
    (labeler : List EnrichedItem → String × String)
    (freshIds : Nat → String) (st : PipelineState) :
    List NarrativeCluster × PipelineState :=
  if (get_all_vectors st.vectors
      (some (now - cfg.rolling_window_days * usPerDay))).1.length <
      cfg.min_cluster_size then
    ([], st)
  else
    runBody now hdbscan labeler freshIds st
      (get_all_vectors st.vectors
        (some (now - cfg.rolling_window_days * usPerDay))).1
      (get_all_vectors st.vectors
        (some (now - cfg.rolling_window_days * usPerDay))).2

-- ---------------------------------------------------------------------
-- intelligence/divergence.py : source divergence detection
-- ---------------------------------------------------------------------

/-- Dot product of two equal-dimension vectors (np.dot). -/
def dotQ (a b : List ℚ) : ℚ := (List.zipWith (· * ·) a b).sum

/-- Sum of squares of the components. -/
def sumSq (a : List ℚ) : ℚ := (a.map fun x => x * x).sum

/-- Euclidean norm (np.linalg.norm), a real number. -/
noncomputable def normR (a : List ℚ) : ℝ := Real.sqrt ((sumSq a : ℚ) : ℝ)

/-- Cosine distance between sub-centroids as the detector computes it:
1 - dot / (norm product + 1e-10).  The float literal 1e-10 is modelled
by the rational it denotes. -/
noncomputable def cosDist (va vb : List ℚ) : ℝ :=
  1 - ((dotQ va vb : ℚ) : ℝ) / (normR va * normR vb + 1 / 10000000000)

/-- Python round to 4 decimal places: nearest, ties to even (modelled
as exact real rounding of the real value). -/
noncomputable def pyRound (x : ℝ) : ℤ :=
  if Int.fract x = 1/2 then (if Even ⌊x⌋ then ⌊x⌋ else ⌊x⌋ + 1)
  else round x

/-- round(x, 4). -/
noncomputable def round4 (x : ℝ) : ℝ := ((pyRound (x * 10000) : ℤ) : ℝ) / 10000

/-- One emitted divergence record.  The human-readable description
field repeats the other fields with the distance formatted to three
decimals; string formatting of a float is not modelled. -/
structure DivergenceRecord where
  cluster_id : String
  cluster_label : String
  source_a : String
  source_b : String
  cosine_distance : ℝ

/-- Member embedding ids of a cluster grouped by source family, in
first-occurrence order over the publication-descending item list. -/
def clusterSourceGroups (s : Store) (cid : String) :
    List (String × List String) :=
  (get_items_by_cluster_rows s cid).foldl
    (fun acc r => addToGroup acc r.source_type r.embedding_id) []

/-- Per-family sub-centroids: mean of the vectors found for the ids of
each family, families with no stored vector dropped. -/
def clusterSubCentroids (s : Store) (vs : List VPoint) (cid : String) :
    List (String × List ℚ) :=
  (clusterSourceGroups s cid).filterMap fun g =>
    match (g.2.filterMap
        (get_vectors_by_ids vs ((clusterSourceGroups s cid).flatMap
          (fun h => h.2)))) with
    | [] => none
    | vecs => some (g.1, meanVec vecs)

open Classical in
/-- The unordered-pair double loop of DivergenceDetector.detect over
the sub-centroids of one cluster. -/
noncomputable def detectClusterPairs (threshold : ℝ) (c : NarrativeCluster)
    (subs : List (String × List ℚ)) : List DivergenceRecord :=
  (List.range subs.length).flatMap fun i =>
    ((List.range subs.length).filter fun j => decide (i < j)).filterMap fun j =>
      match subs[i]?, subs[j]? with
      | some (sa, va), some (sb, vb) =>
        if cosDist va vb > threshold then
          some ⟨c.id, c.label, sa, sb, round4 (cosDist va vb)⟩
        else none
      | _, _ => none

/-- DivergenceDetector.detect restricted to one cluster: skip clusters
with fewer than 3 members, fewer than 2 source families, or fewer than
2 sub-centroids. -/
noncomputable def detectCluster (threshold : ℝ) (s : Store)
    (vs : List VPoint) (c : NarrativeCluster) : List DivergenceRecord :=
  if (get_items_by_cluster_rows s c.id).length < 3 then []
  else if (clusterSourceGroups s c.id).length < 2 then []
  else if (clusterSubCentroids s vs c.id).length < 2 then []
  else detectClusterPairs threshold c (clusterSubCentroids s vs c.id)

/-- DivergenceDetector.detect. -/
noncomputable def detect (threshold : ℝ) (clusters : List NarrativeCluster)
    (s : Store) (vs : List VPoint) : List DivergenceRecord :=
  clusters.flatMap (detectCluster threshold s vs)

/-- Spec-side characterisation of one emitted record for a cluster:
indices i < j into the sub-centroid list whose cosine distance exceeds
the threshold, giving the record with the two family names and the
rounded distance. -/
def emitsPair (threshold : ℝ) (c : NarrativeCluster)
    (subs : List (String × List ℚ)) (rec : DivergenceRecord) : Prop :=
  ∃ i j, ∃ hi : i < subs.length, ∃ hj : j < subs.length, i < j ∧
    cosDist subs[i].2 subs[j].2 > threshold ∧
    rec = ⟨c.id, c.label, subs[i].1, subs[j].1,
      round4 (cosDist subs[i].2 subs[j].2)⟩

/-- Items-table row for the divergence witness: clustered into c1. -/
def exC9row (pid : String) (stv : String) (t : Nat) : ItemRow :=
  ⟨pid, stv, "src", String.append "http://" pid, none, t, t, "en", "s",
    [], [], "f", 0, [], pid, "m", some "c1", some "L", "haiku", 0, false⟩

/-- Store for the divergence witness: five rss and five gdelt items in
cluster c1, publication times making the rss family appear first. -/
def exC9store : Store :=
  ⟨[exC9row "r1" "rss" 110, exC9row "r2" "rss" 109, exC9row "r3" "rss" 108,
    exC9row "r4" "rss" 107, exC9row "r5" "rss" 106,
    exC9row "g1" "gdelt" 105, exC9row "g2" "gdelt" 104,
    exC9row "g3" "gdelt" 103, exC9row "g4" "gdelt" 102,
    exC9row "g5" "gdelt" 101], [], [], []⟩

/-- Vector point for the divergence witness. -/
def exC9vec (pid : String) (v : List ℚ) : VPoint := ⟨pid, v, "x", "x", 0, "", ""⟩

/-- Vector store for the divergence witness: rss members at the unit
vector u = (1, 0), gdelt members at -u. -/
def exC9vecs : List VPoint :=
  [exC9vec "r1" [1, 0], exC9vec "r2" [1, 0], exC9vec "r3" [1, 0],
   exC9vec "r4" [1, 0], exC9vec "r5" [1, 0],
   exC9vec "g1" [-1, 0], exC9vec "g2" [-1, 0], exC9vec "g3" [-1, 0],
   exC9vec "g4" [-1, 0], exC9vec "g5" [-1, 0]]

/-- The cluster under test for the divergence witness. -/
def exC9cluster : NarrativeCluster :=
  ⟨"c1", "L", "S", 10, 0, 0, [], [], [], [], [], .active, none, []⟩

/-- Example prev_members mapping for the identity-stability witness. -/
def exC1pm (cid : String) : Finset String :=
  if cid = "A" then {"1", "2", "3"} else if cid = "B" then {"4", "5"} else ∅

/-- Example previous clusters (first run) for the witness. -/
def exC1prevs : List NarrativeCluster :=
  [⟨"A", "la", "sa", 3, 5, 6, [], [], [], [], [], .active, none, []⟩,
   ⟨"B", "lb", "sb", 2, 7, 8, [], [], [], [], [], .emerging, none, []⟩]

/-- Example newly built clusters (second run, identical member sets)
for the witness. -/
def exC1news : List NarrativeCluster :=
  [⟨"N1", "l1", "s1", 3, 10, 20, [], [], [], [], [], .emerging, none, ["1", "2", "3"]⟩,
   ⟨"N2", "l2", "s2", 2, 11, 21, [], [], [], [], [], .emerging, none, ["4", "5"]⟩]

-- =====================================================================
-- THEOREMS
-- =====================================================================

/-- Jaccard overlap never exceeds 1. -/
theorem jaccard_le_one (a b : Finset String) : jaccard a b ≤ 1 := by
  unfold jaccard
  rcases Nat.eq_zero_or_pos (a ∪ b).card with h | h
  · simp [h]
  · rw [div_le_one (by exact_mod_cast h)]
    exact_mod_cast Finset.card_le_card Finset.inter_subset_union

/-- Jaccard overlap of a nonempty set with itself is exactly 1. -/
theorem jaccard_self (a : Finset String) (h : a ≠ ∅) : jaccard a a = 1 := by
  unfold jaccard
  rw [Finset.inter_self, Finset.union_self, div_self]
  exact Nat.cast_ne_zero.2 fun hc => h (Finset.card_eq_zero.1 hc)

/-- Jaccard overlap with a different set is strictly below 1 when the
first set is nonempty. -/
theorem jaccard_lt_one (a b : Finset String) (ha : a ≠ ∅) (hne : a ≠ b) :
    jaccard a b < 1 := by
  have hsub : a ∩ b ⊆ a ∪ b := Finset.inter_subset_union
  have hnoteq : a ∩ b ≠ a ∪ b := by
    intro hEq
    apply hne
    apply Finset.Subset.antisymm
    · exact fun x hx => Finset.inter_subset_right (hEq ▸ Finset.subset_union_left hx)
    · exact fun x hx => Finset.inter_subset_left (hEq ▸ Finset.subset_union_right hx)
  have hlt : (a ∩ b).card < (a ∪ b).card :=
    Finset.card_lt_card (ssubset_of_subset_of_ne hsub hnoteq)
  have hpos : (0 : ℚ) < ((a ∪ b).card : ℚ) := by
    exact_mod_cast Finset.card_pos.2
      ((Finset.nonempty_iff_ne_empty.2 ha).mono Finset.subset_union_left)
  rw [jaccard, div_lt_one hpos]
  exact_mod_cast hlt

/-- Once the running best overlap is 1, the inner loop never replaces
it. -/
theorem foldl_matchStep_fixed (pm : String → Finset String)
    (used : Finset String) (ncm : Finset String)
    (l : List NarrativeCluster) :
    ∀ pid, l.foldl (matchStep pm used ncm) (1, some pid) = (1, some pid) := by
  induction l with
  | nil => intro pid; rfl
  | cons pc t ih =>
    intro pid
    have hng : ¬ jaccard ncm (pm pc.id) > (1 : ℚ) := not_lt.2 (jaccard_le_one _ _)
    have hstep : matchStep pm used ncm (1, some pid) pc = (1, some pid) := by
      by_cases h1 : pc.id ∈ used
      · simp [matchStep, h1]
      · by_cases h2 : pm pc.id = ∅
        · simp [matchStep, h1, h2]
        · simp [matchStep, h1, h2, hng]
    rw [List.foldl_cons, hstep]
    exact ih pid

/-- The inner loop of _match_clusters finds the unique unclaimed
previous cluster whose member set equals the new member set, with
overlap exactly 1. -/
theorem findBest_aux (pm : String → Finset String) (used : Finset String)
    (ncm : Finset String) (pc0 : NarrativeCluster)
    (hu : pc0.id ∉ used) (hm : pm pc0.id = ncm) (hne : ncm ≠ ∅) :
    ∀ (l : List NarrativeCluster) (acc : ℚ × Option String),
      pc0 ∈ l →
      (∀ pc ∈ l, pm pc.id = ncm → pc.id = pc0.id) →
      acc.1 < 1 →
      l.foldl (matchStep pm used ncm) acc = (1, some pc0.id) := by
  intro l
  induction l with
  | nil => intro acc h; exact absurd h (List.not_mem_nil _)
  | cons pc t ih =>
    intro acc hmem huniq hlt
    rw [List.foldl_cons]
    by_cases heq : pm pc.id = ncm
    · have hid : pc.id = pc0.id := huniq pc (List.mem_cons_self _ _) heq
      have hone : jaccard ncm (pm pc.id) = 1 := by
        rw [heq]; exact jaccard_self _ hne
      have hstep : matchStep pm used ncm acc pc = (1, some pc0.id) := by
        have h1 : pc.id ∉ used := hid ▸ hu
        have h2 : pm pc.id ≠ ∅ := by rw [heq]; exact hne
        have hgt : jaccard ncm (pm pc.id) > acc.1 := by rw [hone]; exact hlt
        unfold matchStep
        rw [if_neg h1, if_neg h2, if_pos hgt, hone, hid]
      rw [hstep]
      exact foldl_matchStep_fixed pm used ncm t pc0.id
    · have hpc0t : pc0 ∈ t := by
        rcases List.mem_cons.1 hmem with h | h
        · exact absurd (by rw [← h]; exact hm) heq
        · exact h
      have hlt2 : (matchStep pm used ncm acc pc).1 < 1 := by
        by_cases h1 : pc.id ∈ used
        · simpa [matchStep, h1] using hlt
        · by_cases h2 : pm pc.id = ∅
          · simpa [matchStep, h1, h2] using hlt
          · by_cases h3 : jaccard ncm (pm pc.id) > acc.1
            · have : jaccard ncm (pm pc.id) < 1 :=
                jaccard_lt_one ncm (pm pc.id) hne (fun hEq => heq hEq.symm)
              simpa [matchStep, h1, h2, h3] using this
            · simpa [matchStep, h1, h2, h3] using hlt
      exact ih _ hpc0t (fun pc' h' hp => huniq pc' (List.mem_cons_of_mem _ h') hp) hlt2

/-- findBest returns overlap 1 and the id of the unique matching
previous cluster. -/
theorem findBest_eq (pm : String → Finset String) (used : Finset String)
    (ncm : Finset String) (prevs : List NarrativeCluster)
    (pc0 : NarrativeCluster) (h0 : pc0 ∈ prevs) (hu : pc0.id ∉ used)
    (hm : pm pc0.id = ncm) (hne : ncm ≠ ∅)
    (huniq : ∀ pc ∈ prevs, pm pc.id = ncm → pc.id = pc0.id) :
    findBest pm used ncm prevs = (1, some pc0.id) :=
  findBest_aux pm used ncm pc0 hu hm hne prevs (0, none) h0 huniq (by norm_num)

/-- find? by id returns the member itself when ids are nodup. -/
theorem find?_id_eq_of_nodup (prevs : List NarrativeCluster)
    (pc0 : NarrativeCluster)
    (hids : (prevs.map (fun pc => pc.id)).Nodup) (h0 : pc0 ∈ prevs) :
    prevs.find? (fun pc => pc.id == pc0.id) = some pc0 := by
  induction prevs with
  | nil => exact absurd h0 (List.not_mem_nil _)
  | cons pc t ih =>
    by_cases h : pc.id = pc0.id
    · have hpc : pc = pc0 := by
        rcases List.mem_cons.1 h0 with rfl | hmem
        · rfl
        · exfalso
          have hin : pc0.id ∈ t.map (fun x => x.id) :=
            List.mem_map_of_mem _ hmem
          have hnotin := (List.nodup_cons.1 hids).1
          exact hnotin (show pc.id ∈ List.map (fun pc => pc.id) t by
            rw [h]; exact hin)
      rw [List.find?_cons_of_pos _ (by simp [h]), hpc]
    · have hmem : pc0 ∈ t := by
        rcases List.mem_cons.1 h0 with rfl | hmem
        · exact absurd rfl h
        · exact hmem
      rw [List.find?_cons_of_neg _ (by simp [h])]
      exact ih (List.nodup_cons.1 hids).2 hmem

/-- One outer-loop iteration of _match_clusters on a new cluster whose
member set coincides with a unique unclaimed previous cluster: the id
is inherited, the status becomes active, first_seen is adopted, and the
previous id is claimed. -/
theorem matchOne_eq (pm : String → Finset String)
    (prevs : List NarrativeCluster) (used : Finset String)
    (nc pc0 : NarrativeCluster) (h0 : pc0 ∈ prevs) (hu : pc0.id ∉ used)
    (hm : pm pc0.id = nc.member_ids.toFinset)
    (hne : nc.member_ids.toFinset ≠ ∅) (hid0 : pc0.id ≠ "")
    (hids : (prevs.map (fun pc => pc.id)).Nodup)
    (huniq : ∀ pc ∈ prevs, pm pc.id = nc.member_ids.toFinset → pc.id = pc0.id) :
    matchOne pm prevs used nc =
      ({ nc with id := pc0.id, status := .active, first_seen := pc0.first_seen },
        insert pc0.id used) := by
  unfold matchOne
  rw [if_neg hne, findBest_eq pm used _ prevs pc0 h0 hu hm hne huniq]
  dsimp only
  rw [if_pos ⟨by norm_num, hid0⟩, find?_id_eq_of_nodup prevs pc0 hids h0]
  rfl

/-- The outer loop of _match_clusters matches every new cluster to the
previous cluster holding exactly its member set, whenever the member
sets are nonempty and pairwise disjoint, previous ids are distinct,
truthy and determine distinct nonempty member sets, and each new member
set occurs among the unclaimed previous ones. -/
theorem matchGo_spec (pm : String → Finset String)
    (prevs : List NarrativeCluster)
    (hids : (prevs.map (fun pc => pc.id)).Nodup)
    (hid0 : ∀ pc ∈ prevs, pc.id ≠ "")
    (hinj : ∀ pc ∈ prevs, ∀ pc' ∈ prevs,
      pm pc.id = pm pc'.id → pm pc.id ≠ ∅ → pc.id = pc'.id) :
    ∀ (ncs : List NarrativeCluster) (used : Finset String),
      ncs.Pairwise (fun a b => Disjoint a.member_ids.toFinset b.member_ids.toFinset) →
      (∀ nc ∈ ncs, nc.member_ids ≠ []) →
      (∀ nc ∈ ncs, ∃ pc ∈ prevs, pm pc.id = nc.member_ids.toFinset ∧ pc.id ∉ used) →
      List.Forall₂ (matchedAs pm prevs) ncs (matchGo pm prevs ncs used) := by
  intro ncs
  induction ncs with
  | nil => intro used _ _ _; exact List.Forall₂.nil
  | cons nc rest ih =>
    intro used hpw hnonempty hex
    obtain ⟨pc0, hpc0, hm0, hu0⟩ := hex nc (List.mem_cons_self _ _)
    have hneset : nc.member_ids.toFinset ≠ ∅ := by
      intro h
      exact hnonempty nc (List.mem_cons_self _ _) ((List.toFinset_eq_empty_iff _).1 h)
    have huniq : ∀ pc ∈ prevs, pm pc.id = nc.member_ids.toFinset → pc.id = pc0.id := by
      intro pc hpc hpcm
      exact hinj pc hpc pc0 hpc0 (by rw [hpcm, hm0]) (by rw [hpcm]; exact hneset)
    have hone := matchOne_eq pm prevs used nc pc0 hpc0 hu0 hm0 hneset
      (hid0 pc0 hpc0) hids huniq
    show List.Forall₂ (matchedAs pm prevs) (nc :: rest)
      ((matchOne pm prevs used nc).1 ::
        matchGo pm prevs rest (matchOne pm prevs used nc).2)
    rw [hone]
    refine List.Forall₂.cons ⟨pc0, hpc0, hm0, rfl⟩ ?_
    apply ih
    · exact (List.pairwise_cons.1 hpw).2
    · exact fun nc' h' => hnonempty nc' (List.mem_cons_of_mem _ h')
    · intro nc' h'
      obtain ⟨pc1, hpc1, hm1, hu1⟩ := hex nc' (List.mem_cons_of_mem _ h')
      refine ⟨pc1, hpc1, hm1, ?_⟩
      rw [Finset.mem_insert, not_or]
      refine ⟨?_, hu1⟩
      intro hEq
      have h1 : nc'.member_ids.toFinset = nc.member_ids.toFinset := by
        rw [← hm1, hEq, hm0]
      have hdisj : Disjoint nc.member_ids.toFinset nc'.member_ids.toFinset :=
        (List.pairwise_cons.1 hpw).1 nc' h'
      rw [h1] at hdisj
      exact hneset (by simpa using disjoint_self.1 hdisj)

/-- C1: when the second run builds clusters whose member-id sets are
exactly those of the still emerging-or-active first-run clusters
(nonempty, pairwise disjoint, with distinct truthy prior ids), matching
gives every second-run cluster the id of the first-run cluster holding
the same member set, with status active and first_seen equal to (hence
at most) the first-run first_seen, and the set of cluster ids is
preserved. -/
theorem claim1_identity_stability (pm : String → Finset String)
    (prevs ncs : List NarrativeCluster)
    (hids : (prevs.map (fun pc => pc.id)).Nodup)
    (hid0 : ∀ pc ∈ prevs, pc.id ≠ "")
    (hinj : ∀ pc ∈ prevs, ∀ pc' ∈ prevs,
      pm pc.id = pm pc'.id → pm pc.id ≠ ∅ → pc.id = pc'.id)
    (hpw : ncs.Pairwise
      (fun a b => Disjoint a.member_ids.toFinset b.member_ids.toFinset))
    (hnonempty : ∀ nc ∈ ncs, nc.member_ids ≠ [])
    (hex : ∀ nc ∈ ncs, ∃ pc ∈ prevs, pm pc.id = nc.member_ids.toFinset)
    (hsurj : ∀ pc ∈ prevs, ∃ nc ∈ ncs, nc.member_ids.toFinset = pm pc.id) :
    List.Forall₂ (matchedAs pm prevs) ncs (match_clusters pm prevs ncs) ∧
    ((match_clusters pm prevs ncs).map (fun c => c.id)).toFinset =
      (prevs.map (fun pc => pc.id)).toFinset := by
  by_cases hp : prevs = []
  · subst hp
    cases ncs with
    | nil => exact ⟨List.Forall₂.nil, by simp [match_clusters]⟩
    | cons nc rest =>
      obtain ⟨pc, hpc, _⟩ := hex nc (List.mem_cons_self _ _)
      exact absurd hpc (List.not_mem_nil _)
  · have hmc : match_clusters pm prevs ncs = matchGo pm prevs ncs ∅ := by
      unfold match_clusters; rw [if_neg hp]
    have hF : List.Forall₂ (matchedAs pm prevs) ncs (match_clusters pm prevs ncs) := by
      rw [hmc]
      exact matchGo_spec pm prevs hids hid0 hinj ncs ∅ hpw hnonempty
        (fun nc h => by
          obtain ⟨pc, hpc, hm⟩ := hex nc h
          exact ⟨pc, hpc, hm, by simp⟩)
    refine ⟨hF, ?_⟩
    have hlen := hF.length_eq
    apply Finset.Subset.antisymm
    · intro x hx
      rw [List.mem_toFinset, List.mem_map] at hx
      obtain ⟨res, hres, hresid⟩ := hx
      obtain ⟨⟨i, hilt⟩, hgi⟩ := List.mem_iff_get.1 hres
      have hR := (List.forall₂_iff_get.1 hF).2 i (by omega) hilt
      obtain ⟨pc, hpc, _, hresEq⟩ := hR
      rw [List.mem_toFinset, List.mem_map]
      refine ⟨pc, hpc, ?_⟩
      rw [← hresid, ← hgi, hresEq]
    · intro x hx
      rw [List.mem_toFinset, List.mem_map] at hx
      obtain ⟨pc, hpc, hxid⟩ := hx
      obtain ⟨nc, hnc, hset⟩ := hsurj pc hpc
      obtain ⟨⟨i, hilt⟩, hgi⟩ := List.mem_iff_get.1 hnc
      have hR := (List.forall₂_iff_get.1 hF).2 i hilt (by omega)
      obtain ⟨pc', hpc', hm', hres'⟩ := hR
      have hpm : pm pc'.id = pm pc.id := by
        rw [hm', hgi, ← hset]
      have hnonemp : pm pc'.id ≠ ∅ := by
        rw [hm', hgi]
        intro h
        exact hnonempty nc hnc ((List.toFinset_eq_empty_iff _).1 h)
      have hideq : pc'.id = pc.id := hinj pc' hpc' pc hpc hpm hnonemp
      rw [List.mem_toFinset, List.mem_map]
      have hlt2 : i < (match_clusters pm prevs ncs).length := by omega
      refine ⟨(match_clusters pm prevs ncs).get ⟨i, hlt2⟩, List.get_mem _ _ hlt2, ?_⟩
      rw [hres', ← hxid]
      exact hideq

/-- Witness for C1: two previous clusters A and B with member sets
equal to the two newly built clusters; both ids are inherited, both
become active, first_seen values 5 and 7 are adopted. -/
theorem claim1_identity_stability_witness :
    List.Forall₂ (matchedAs exC1pm exC1prevs) exC1news
      (match_clusters exC1pm exC1prevs exC1news) ∧
    ((match_clusters exC1pm exC1prevs exC1news).map (fun c => c.id)).toFinset =
      (exC1prevs.map (fun pc => pc.id)).toFinset :=
  claim1_identity_stability exC1pm exC1prevs exC1news
    (by decide) (by decide) (by decide) (by decide) (by decide) (by decide) (by decide)

/-- Erasing an element that a filterMap discards leaves the filterMap
output unchanged. -/
theorem filterMap_eraseIdx_of_none {α β : Type} (f : α → Option β) :
    ∀ (l : List α) (i : Nat) (h : i < l.length), f l[i] = none →
      (l.eraseIdx i).filterMap f = l.filterMap f
  | a :: l, 0, _, hf => by
    simp only [List.getElem_cons_zero] at hf
    simp [List.filterMap_cons, hf]
  | a :: l, i + 1, h, hf => by
    have ih := filterMap_eraseIdx_of_none f l i (by simpa using h) (by simpa using hf)
    simp only [List.eraseIdx_cons_succ, List.filterMap_cons]
    cases f a <;> simp [ih]

/-- An entity object whose type or role value is not an enum member is
skipped by the per-entity try block. -/
theorem parseEntity_eq_none_of_bad (e : RawEntityJson)
    (hbad : (∃ s, e.type = some s ∧ entityTypeOfValue s = none) ∨
            (∃ s, e.role = some s ∧ entityRoleOfValue s = none)) :
    parseEntity e = none := by
  rcases hbad with ⟨s, hs, hv⟩ | ⟨s, hs, hv⟩
  · cases hn : e.name
    · simp [parseEntity, hn]
    · simp [parseEntity, hn, hs, hv]
  · cases hn : e.name
    · simp [parseEntity, hn]
    · cases ht : entityTypeOfValue (e.type.getD "person")
      · simp [parseEntity, hn, ht]
      · simp [parseEntity, hn, ht, hs, hv]

/-- C7: for every LLM response whose decoded JSON contains an entity
object with a type or role value outside the allowed enum sets, the
enrichment parser drops exactly that entity: the parse result equals
the parse of the same record with that single entity erased, so all
sibling entities and the remaining fields (summary, claims, framing,
sentiment, topic_tags) are retained. -/
theorem claim7_unknown_entity_dropped (data : RawEnrichment)
    (l : List RawEntityJson) (i : Nat) (hl : data.entities = some l)
    (hi : i < l.length)
    (hbad : (∃ s, l[i].type = some s ∧ entityTypeOfValue s = none) ∨
            (∃ s, l[i].role = some s ∧ entityRoleOfValue s = none)) :
    parse_enrichment_json data =
      parse_enrichment_json { data with entities := some (l.eraseIdx i) } := by
  have hnone : parseEntity l[i] = none := parseEntity_eq_none_of_bad _ hbad
  simp [parse_enrichment_json, hl, filterMap_eraseIdx_of_none parseEntity l i hi hnone]

/-- Witness for C7: a record with one valid entity and one entity of
unknown type parses the same as the record with the bad entity erased. -/
theorem claim7_unknown_entity_dropped_witness :
    parse_enrichment_json
      ⟨some "s", some [⟨some "Alice", some "person", some "subject", some []⟩,
                       ⟨some "Bob", some "alien", some "subject", none⟩],
       some ["c"], some "f", some (1/2), some ["t"]⟩ =
    parse_enrichment_json
      { (⟨some "s", some [⟨some "Alice", some "person", some "subject", some []⟩,
                          ⟨some "Bob", some "alien", some "subject", none⟩],
          some ["c"], some "f", some (1/2), some ["t"]⟩ : RawEnrichment) with
        entities := some ([(⟨some "Alice", some "person", some "subject", some []⟩ : RawEntityJson),
                           ⟨some "Bob", some "alien", some "subject", none⟩].eraseIdx 1) } :=
  claim7_unknown_entity_dropped _ _ 1 rfl (by decide)
    (Or.inl ⟨"alien", by decide, by decide⟩)

/-- C8: the parsed sentiment equals the numeric input clamped to
[-1, 1], and inputs already inside the interval are unchanged. -/
theorem claim8_sentiment_clamped (data : RawEnrichment) (s : ℚ)
    (h : data.sentiment = some s) :
    (parse_enrichment_json data).sentiment = max (-1) (min 1 s) ∧
      (-1 ≤ s → s ≤ 1 → (parse_enrichment_json data).sentiment = s) := by
  refine ⟨by simp [parse_enrichment_json, h], fun h1 h2 => ?_⟩
  simp [parse_enrichment_json, h, min_eq_right h2, max_eq_right h1]

/-- Witness for C8: sentiment 5 is stored as 1, sentiment -5 as -1, and
an in-range sentiment 1/2 is kept unchanged. -/
theorem claim8_sentiment_clamped_witness :
    (parse_enrichment_json ⟨none, none, none, none, some 5, none⟩).sentiment = 1 ∧
    (parse_enrichment_json ⟨none, none, none, none, some (-5), none⟩).sentiment = -1 ∧
    (parse_enrichment_json ⟨none, none, none, none, some (1/2), none⟩).sentiment = 1/2 :=
  ⟨(claim8_sentiment_clamped _ 5 rfl).1.trans (by norm_num),
   (claim8_sentiment_clamped _ (-5) rfl).1.trans (by norm_num),
   (claim8_sentiment_clamped _ (1/2) rfl).2 (by norm_num) (by norm_num)⟩

/-- find? skips a prefix on which the predicate fails everywhere. -/
theorem find?_append_right {α : Type} {p : α → Bool} (l1 l2 : List α)
    (h : ∀ x ∈ l1, p x = false) : (l1 ++ l2).find? p = l2.find? p := by
  rw [List.find?_append, List.find?_eq_none.2 (by simpa using h), Option.none_or]

/-- C2: inserting an item whose canonical source_url is already stored
fails with the uniqueness violation and leaves the store unchanged;
afterwards item_url_exists is true, every get_items row carrying that
URL is the originally stored row, and that row is still returned when
it is unarchived and within the query limit. -/
theorem claim2_duplicate_url_insert (s : Store) (item : EnrichedItem)
    (r : ItemRow) (hr : r ∈ s.items) (hu : r.source_url = item.source_url)
    (huniq : ∀ x ∈ s.items, x.source_url = item.source_url → x = r) :
    (insert_item s item).1 = some .integrityError ∧
    (insert_item s item).2 = s ∧
    item_url_exists s item.source_url = true ∧
    (∀ row ∈ get_items_rows s none 50 none,
        row.source_url = item.source_url → row = r) ∧
    (r.archived = false → s.items.length ≤ 50 →
        r ∈ get_items_rows s none 50 none) := by
  have hex : ∃ x ∈ s.items, x.id = item.id ∨ x.source_url = item.source_url :=
    ⟨r, hr, Or.inr hu⟩
  have h1 : insert_item s item = (some .integrityError, s) := by
    unfold insert_item; rw [if_pos hex]
  refine ⟨by rw [h1], by rw [h1], ?_, ?_, ?_⟩
  · simp only [item_url_exists, decide_eq_true_eq]
    exact ⟨r, hr, hu⟩
  · intro row hrow hurl
    have h2 : row ∈ (s.items.filter (getItemsPred none none)).mergeSort
        (fun a b => b.published_at ≤ a.published_at) := List.mem_of_mem_take hrow
    have h3 : row ∈ s.items :=
      List.mem_of_mem_filter ((List.mergeSort_perm _ _).mem_iff.1 h2)
    exact huniq row h3 hurl
  · intro harch hlen
    have hp : getItemsPred none none r = true := by
      simp [getItemsPred, harch]
    have h4 : r ∈ s.items.filter (getItemsPred none none) :=
      List.mem_filter.2 ⟨hr, hp⟩
    have h5 : r ∈ (s.items.filter (getItemsPred none none)).mergeSort
        (fun a b => b.published_at ≤ a.published_at) :=
      (List.mergeSort_perm _ _).mem_iff.2 h4
    have h6 : ((s.items.filter (getItemsPred none none)).mergeSort
        (fun a b => b.published_at ≤ a.published_at)).length ≤ 50 :=
      le_trans (le_trans (List.mergeSort_perm _ _).length_eq.le
        (List.length_filter_le _ _)) hlen
    unfold get_items_rows
    rw [List.take_of_length_le h6]
    exact h5

/-- Witness for C2: a one-item store and a second item with the same
URL. -/
theorem claim2_duplicate_url_insert_witness :
    (insert_item
        ⟨[itemToRow ⟨"i1", .rss, "feed", "http://u", none, 10, 11, "en", "s",
            [], [], "f", 0, [], "i1", "mini", none, none, "haiku", 0⟩],
          [], [], []⟩
        ⟨"i2", .gdelt, "g", "http://u", none, 12, 13, "en", "s2",
            [], [], "f2", 0, [], "i2", "mini", none, none, "haiku", 0⟩).1 =
      some .integrityError ∧
    (insert_item
        ⟨[itemToRow ⟨"i1", .rss, "feed", "http://u", none, 10, 11, "en", "s",
            [], [], "f", 0, [], "i1", "mini", none, none, "haiku", 0⟩],
          [], [], []⟩
        ⟨"i2", .gdelt, "g", "http://u", none, 12, 13, "en", "s2",
            [], [], "f2", 0, [], "i2", "mini", none, none, "haiku", 0⟩).2 =
      ⟨[itemToRow ⟨"i1", .rss, "feed", "http://u", none, 10, 11, "en", "s",
            [], [], "f", 0, [], "i1", "mini", none, none, "haiku", 0⟩],
          [], [], []⟩ ∧
    item_url_exists
        ⟨[itemToRow ⟨"i1", .rss, "feed", "http://u", none, 10, 11, "en", "s",
            [], [], "f", 0, [], "i1", "mini", none, none, "haiku", 0⟩],
          [], [], []⟩ "http://u" = true ∧
    itemToRow ⟨"i1", .rss, "feed", "http://u", none, 10, 11, "en", "s",
            [], [], "f", 0, [], "i1", "mini", none, none, "haiku", 0⟩ ∈
      get_items_rows
        ⟨[itemToRow ⟨"i1", .rss, "feed", "http://u", none, 10, 11, "en", "s",
            [], [], "f", 0, [], "i1", "mini", none, none, "haiku", 0⟩],
          [], [], []⟩ none 50 none := by
  have h := claim2_duplicate_url_insert
    ⟨[itemToRow ⟨"i1", .rss, "feed", "http://u", none, 10, 11, "en", "s",
        [], [], "f", 0, [], "i1", "mini", none, none, "haiku", 0⟩],
      [], [], []⟩
    ⟨"i2", .gdelt, "g", "http://u", none, 12, 13, "en", "s2",
        [], [], "f2", 0, [], "i2", "mini", none, none, "haiku", 0⟩
    (itemToRow ⟨"i1", .rss, "feed", "http://u", none, 10, 11, "en", "s",
        [], [], "f", 0, [], "i1", "mini", none, none, "haiku", 0⟩)
    (by simp) (by simp [itemToRow]) (by intro x hx _; simpa using hx)
  exact ⟨h.1, h.2.1, h.2.2.1, h.2.2.2.2 (by simp [itemToRow]) (by simp)⟩

/-- The enum value strings decode back to the members they came from. -/
theorem entityTypeOfValue_value (t : EntityType) :
    entityTypeOfValue t.value = some t := by
  cases t <;> rfl

/-- Role value strings decode back to the members they came from. -/
theorem entityRoleOfValue_value (r : EntityRole) :
    entityRoleOfValue r.value = some r := by
  cases r <;> rfl

/-- Source-type value strings decode back to the members they came
from. -/
theorem sourceTypeOfValue_value (st : SourceType) :
    sourceTypeOfValue st.value = some st := by
  cases st <;> rfl

/-- Entity serialisation round-trips. -/
theorem entityOfJson_toJson (e : Entity) : entityOfJson e.toJson = some e := by
  simp [entityOfJson, Entity.toJson, entityTypeOfValue_value, entityRoleOfValue_value]

/-- Entity-list serialisation round-trips. -/
theorem decodeEntities_map_toJson (l : List Entity) :
    decodeEntities (l.map Entity.toJson) = some l := by
  induction l with
  | nil => rfl
  | cons e es ih => simp [decodeEntities, entityOfJson_toJson, ih]

/-- Item row serialisation round-trips field for field. -/
theorem row_to_item_itemToRow (it : EnrichedItem) :
    row_to_item (itemToRow it) = some it := by
  simp [row_to_item, itemToRow, sourceTypeOfValue_value, decodeEntities_map_toJson]

/-- C5: inserting an EnrichedItem with a fresh id and a fresh canonical
URL and reading it back by id returns a value equal to the input field
for field (entities with name, type, role and aliases, datetimes,
sentiment, claims, topic tags, cost and cluster fields included). -/
theorem claim5_insert_get_roundtrip (s : Store) (item : EnrichedItem)
    (hid : ∀ r ∈ s.items, r.id ≠ item.id)
    (hurl : ∀ r ∈ s.items, r.source_url ≠ item.source_url) :
    (insert_item s item).1 = none ∧
    get_item (insert_item s item).2 item.id = some item := by
  have hnex : ¬ ∃ x ∈ s.items, x.id = item.id ∨ x.source_url = item.source_url := by
    rintro ⟨x, hx, h | h⟩
    exacts [hid x hx h, hurl x hx h]
  have h1 : insert_item s item =
      (none, { s with items := s.items ++ [itemToRow item] }) := by
    unfold insert_item; rw [if_neg hnex]
  rw [h1]
  refine ⟨rfl, ?_⟩
  unfold get_item
  have h2 : (s.items ++ [itemToRow item]).find? (fun r => r.id == item.id) =
      some (itemToRow item) := by
    rw [find?_append_right]
    · simp [itemToRow]
    · intro x hx
      simpa using hid x hx
  simpa [h2] using row_to_item_itemToRow item

/-- Witness for C5: a fully populated item round-trips through an empty
store. -/
theorem claim5_insert_get_roundtrip_witness :
    get_item
      (insert_item ⟨[], [], [], []⟩
        ⟨"id1", .rss, "feed", "http://news/1", some "T", 100, 200, "en",
          "summary", [⟨"Alice", .person, .subject, ["Al", "A."]⟩,
                      ⟨"Paris", .place, .location, []⟩],
          ["claim a", "claim b"], "crisis framing", 1/2, ["war", "eu"],
          "id1", "all-MiniLM-L6-v2", some "cl1", some "label", "haiku",
          3/1000⟩).2 "id1" =
    some ⟨"id1", .rss, "feed", "http://news/1", some "T", 100, 200, "en",
          "summary", [⟨"Alice", .person, .subject, ["Al", "A."]⟩,
                      ⟨"Paris", .place, .location, []⟩],
          ["claim a", "claim b"], "crisis framing", 1/2, ["war", "eu"],
          "id1", "all-MiniLM-L6-v2", some "cl1", some "label", "haiku",
          3/1000⟩ :=
  (claim5_insert_get_roundtrip ⟨[], [], [], []⟩ _
    (by simp) (by simp)).2

/-- C4: get_daily_cost sums cost_usd over exactly the entries whose
timestamp falls in the window from 00:00:00 to 23:59:59 of the UTC
calendar day of the queried instant, and appending an entry of a
different calendar day leaves the result unchanged. -/
theorem claim4_daily_cost_window (s : Store) (t : Nat) :
    get_daily_cost s t =
      ((s.costLog.filter fun e =>
          decide (e.timestamp / usPerDay = t / usPerDay) &&
          decide (e.timestamp % usPerDay ≤ dayEndOffset)).map
        (fun e => e.cost_usd)).sum ∧
    (∀ e : CostLogEntry, e.timestamp / usPerDay ≠ t / usPerDay →
      get_daily_cost (log_cost s e) t = get_daily_cost s t) := by
  constructor
  · unfold get_daily_cost
    congr 1
    congr 1
    apply List.filter_congr
    intro e _
    rw [Bool.eq_iff_iff]
    simp only [Bool.and_eq_true, decide_eq_true_eq, usPerDay, dayEndOffset]
    omega
  · intro e he
    unfold get_daily_cost log_cost
    simp only [List.filter_append, List.map_append, List.sum_append]
    have hfe : (decide (t / usPerDay * usPerDay ≤ e.timestamp) &&
        decide (e.timestamp ≤ t / usPerDay * usPerDay + dayEndOffset)) = false := by
      rw [Bool.eq_false_iff]
      simp only [ne_eq, Bool.and_eq_true, decide_eq_true_eq, not_and]
      simp only [usPerDay, dayEndOffset] at he ⊢
      omega
    simp [List.filter_cons, hfe]

/-- Witness for C4: three entries of 0.01, 0.02, 0.03 at an instant sum
to 0.06, and appending a 0.05 entry timestamped the previous day leaves
the total unchanged. -/
theorem claim4_daily_cost_window_witness :
    get_daily_cost
      (log_cost ⟨[], [], [],
        [⟨"i1", "m", 1, 1, 1/100, 1000 * usPerDay + 3600000000⟩,
         ⟨"i2", "m", 1, 1, 2/100, 1000 * usPerDay + 3600000001⟩,
         ⟨"i3", "m", 1, 1, 3/100, 1000 * usPerDay + 3600000002⟩]⟩
        ⟨"i4", "m", 1, 1, 5/100, 999 * usPerDay + 3600000000⟩)
      (1000 * usPerDay + 3600000000) =
    get_daily_cost
      ⟨[], [], [],
        [⟨"i1", "m", 1, 1, 1/100, 1000 * usPerDay + 3600000000⟩,
         ⟨"i2", "m", 1, 1, 2/100, 1000 * usPerDay + 3600000001⟩,
         ⟨"i3", "m", 1, 1, 3/100, 1000 * usPerDay + 3600000002⟩]⟩
      (1000 * usPerDay + 3600000000) ∧
    get_daily_cost
      ⟨[], [], [],
        [⟨"i1", "m", 1, 1, 1/100, 1000 * usPerDay + 3600000000⟩,
         ⟨"i2", "m", 1, 1, 2/100, 1000 * usPerDay + 3600000001⟩,
         ⟨"i3", "m", 1, 1, 3/100, 1000 * usPerDay + 3600000002⟩]⟩
      (1000 * usPerDay + 3600000000) = 6/100 :=
  ⟨(claim4_daily_cost_window
      ⟨[], [], [],
        [⟨"i1", "m", 1, 1, 1/100, 1000 * usPerDay + 3600000000⟩,
         ⟨"i2", "m", 1, 1, 2/100, 1000 * usPerDay + 3600000001⟩,
         ⟨"i3", "m", 1, 1, 3/100, 1000 * usPerDay + 3600000002⟩]⟩
      (1000 * usPerDay + 3600000000)).2
    ⟨"i4", "m", 1, 1, 5/100, 999 * usPerDay + 3600000000⟩ (by decide),
   by norm_num [get_daily_cost, usPerDay, dayEndOffset]⟩

/-- C10: deduplicate filters only against the store, never within the
input batch: it returns exactly the input items whose source_url is
absent from the store, in input order, so two batch items sharing a
fresh URL are both returned. -/
theorem claim10_dedup_ignores_batch (items : List RawItem) (store : Store) :
    deduplicate items store =
      items.filter (fun i => !(item_url_exists store i.source_url)) ∧
    (∀ i1 i2 : RawItem, i1 ∈ items → i2 ∈ items →
      i1.source_url = i2.source_url →
      item_url_exists store i1.source_url = false →
      i1 ∈ deduplicate items store ∧ i2 ∈ deduplicate items store) := by
  have hfil : deduplicate items store =
      items.filter (fun i => !(item_url_exists store i.source_url)) := by
    induction items with
    | nil => rfl
    | cons a l ih =>
      by_cases h : item_url_exists store a.source_url
      · simp [deduplicate, List.filter_cons, h, ih]
      · simp [deduplicate, List.filter_cons,
          Bool.eq_false_iff.2 h, ih]
  refine ⟨hfil, fun i1 i2 h1 h2 hsame hnot => ?_⟩
  rw [hsame] at hnot
  rw [hfil]
  constructor <;> refine List.mem_filter.2 ⟨by assumption, ?_⟩
  · rw [hsame, hnot]; rfl
  · rw [hnot]; rfl

/-- Witness for C10: two raw items with the same fresh URL both survive
deduplication against an empty store. -/
theorem claim10_dedup_ignores_batch_witness :
    (⟨"a", .rss, "s", "http://u", none, "c", none, 0, 0, "en"⟩ : RawItem) ∈
      deduplicate
        [⟨"a", .rss, "s", "http://u", none, "c", none, 0, 0, "en"⟩,
         ⟨"b", .gdelt, "g", "http://u", none, "d", none, 1, 1, "en"⟩]
        ⟨[], [], [], []⟩ ∧
    (⟨"b", .gdelt, "g", "http://u", none, "d", none, 1, 1, "en"⟩ : RawItem) ∈
      deduplicate
        [⟨"a", .rss, "s", "http://u", none, "c", none, 0, 0, "en"⟩,
         ⟨"b", .gdelt, "g", "http://u", none, "d", none, 1, 1, "en"⟩]
        ⟨[], [], [], []⟩ :=
  (claim10_dedup_ignores_batch
    [⟨"a", .rss, "s", "http://u", none, "c", none, 0, 0, "en"⟩,
     ⟨"b", .gdelt, "g", "http://u", none, "d", none, 1, 1, "en"⟩]
    ⟨[], [], [], []⟩).2 _ _ (by simp) (by simp) rfl (by decide)

/-- The store component of insert_item keeps the cost log unchanged. -/
theorem insert_item_snd_costLog (s : Store) (it : EnrichedItem) :
    ((insert_item s it).2).costLog = s.costLog := by
  unfold insert_item
  split_ifs <;> rfl

/-- When insert_item reports an error, the store is unchanged
(rollback). -/
theorem insert_item_snd_of_fail (s : Store) (it : EnrichedItem)
    (h : (insert_item s it).1 ≠ none) : (insert_item s it).2 = s := by
  unfold insert_item at h ⊢
  split_ifs at h ⊢ with hc
  · rfl
  · exact absurd rfl h

/-- C3 as frozen is refuted by the track_costs configuration flag: here
the LLM call succeeds and the item is even fully enriched and
persisted, yet no cost log entry is appended because cost tracking is
disabled. -/
theorem claim3_cost_not_logged_when_tracking_off :
    (processOne false 2 0
        (some (⟨"s", [], [], "f", 0, []⟩, ⟨"i", "m", 1, 1, 1/100, 0⟩))
        (fun _ => some [1]) "em" ⟨⟨[], [], [], []⟩, []⟩
        ⟨"i", .rss, "sn", "http://u", none, "c", none, 0, 0, "en"⟩).2.1.sqlite.costLog
      = [] ∧
    (processOne false 2 0
        (some (⟨"s", [], [], "f", 0, []⟩, ⟨"i", "m", 1, 1, 1/100, 0⟩))
        (fun _ => some [1]) "em" ⟨⟨[], [], [], []⟩, []⟩
        ⟨"i", .rss, "sn", "http://u", none, "c", none, 0, 0, "en"⟩).1 ≠ none := by
  constructor
  · rfl
  · decide

/-- C3 (amended: when cost tracking is enabled, which is the default
configuration): for every item whose budget check passes and whose LLM
call succeeds, the cost entry is appended to the cost log before the
metadata insert and before the vector upsert (it is the first persisted
effect), it remains appended in the final state, and when the embedding
or the metadata insert fails the item is reported as not-enriched with
items and vectors unchanged (partial state: cost logged, no item). -/
theorem claim3_cost_logged_first (budget : ℚ) (now : Nat)
    (result : EnrichmentResult) (cost_entry : CostLogEntry)
    (embed : EnrichmentResult → Option (List ℚ)) (em : String)
    (st : PipelineState) (item : RawItem)
    (hbudget : get_daily_cost st.sqlite now < budget) :
    (processOne true budget now (some (result, cost_entry)) embed em st
        item).2.1.sqlite.costLog = st.sqlite.costLog ++ [cost_entry] ∧
    (processOne true budget now (some (result, cost_entry)) embed em st
        item).2.2.head? = some (.logCost cost_entry) ∧
    (embed result = none →
      (processOne true budget now (some (result, cost_entry)) embed em st
          item).1 = none ∧
      (processOne true budget now (some (result, cost_entry)) embed em st
          item).2.1.sqlite.items = st.sqlite.items ∧
      (processOne true budget now (some (result, cost_entry)) embed em st
          item).2.1.vectors = st.vectors) ∧
    (∀ v, embed result = some v →
      (insert_item (log_cost st.sqlite cost_entry)
          (buildEnrichedItem item result cost_entry em)).1 ≠ none →
      (processOne true budget now (some (result, cost_entry)) embed em st
          item).1 = none ∧
      (processOne true budget now (some (result, cost_entry)) embed em st
          item).2.1.sqlite.items = st.sqlite.items ∧
      (processOne true budget now (some (result, cost_entry)) embed em st
          item).2.1.vectors = st.vectors) := by
  have hb : ¬ budget ≤ get_daily_cost st.sqlite now := not_le.2 hbudget
  obtain hembed | ⟨v, hembed⟩ := Option.eq_none_or_eq_some (embed result)
  ·
    have key : processOne true budget now (some (result, cost_entry)) embed em st item =
        (none, ⟨log_cost st.sqlite cost_entry, st.vectors⟩,
          [.logCost cost_entry]) := by
      unfold processOne
      rw [if_neg hb]
      dsimp only
      rw [hembed]
      rfl
    rw [key]
    refine ⟨by simp [log_cost], rfl, fun _ => ⟨rfl, by simp [log_cost], rfl⟩, ?_⟩
    intro v hv
    rw [hv] at hembed
    cases hembed
  · obtain hins | ⟨err, hins⟩ := Option.eq_none_or_eq_some
      (insert_item (log_cost st.sqlite cost_entry)
        (buildEnrichedItem item result cost_entry em)).1
    · have hpair : insert_item (log_cost st.sqlite cost_entry)
          (buildEnrichedItem item result cost_entry em) =
          (none, (insert_item (log_cost st.sqlite cost_entry)
            (buildEnrichedItem item result cost_entry em)).2) := by
        rw [← hins]
      have key : processOne true budget now (some (result, cost_entry)) embed em st item =
          (some (buildEnrichedItem item result cost_entry em),
            ⟨(insert_item (log_cost st.sqlite cost_entry)
                (buildEnrichedItem item result cost_entry em)).2,
              upsert_item_vec st.vectors (buildVPoint item result v)⟩,
            [.logCost cost_entry,
             .insertItem (itemToRow (buildEnrichedItem item result cost_entry em)),
             .upsertVector (buildVPoint item result v)]) := by
        unfold processOne
        rw [if_neg hb]
        dsimp only
        rw [hembed]
        simp only [reduceIte]
        rw [hpair]
        rfl
      rw [key]
      refine ⟨?_, rfl, ?_, ?_⟩
      · rw [insert_item_snd_costLog]; simp [log_cost]
      · intro hnone; rw [hnone] at hembed; cases hembed
      · intro v' _ hfail
        exact absurd hins hfail
    · have hpair : insert_item (log_cost st.sqlite cost_entry)
          (buildEnrichedItem item result cost_entry em) =
          (some err, (insert_item (log_cost st.sqlite cost_entry)
            (buildEnrichedItem item result cost_entry em)).2) := by
        rw [← hins]
      have hsnd : (insert_item (log_cost st.sqlite cost_entry)
          (buildEnrichedItem item result cost_entry em)).2 =
          log_cost st.sqlite cost_entry :=
        insert_item_snd_of_fail _ _ (by rw [hins]; simp)
      have key : processOne true budget now (some (result, cost_entry)) embed em st item =
          (none, ⟨(insert_item (log_cost st.sqlite cost_entry)
            (buildEnrichedItem item result cost_entry em)).2, st.vectors⟩,
            [.logCost cost_entry]) := by
        unfold processOne
        rw [if_neg hb]
        dsimp only
        rw [hembed]
        simp only [reduceIte]
        rw [hpair]
      rw [key]
      refine ⟨by rw [hsnd]; simp [log_cost], rfl, ?_, ?_⟩
      · intro hnone; rw [hnone] at hembed; cases hembed
      · intro v' _ _
        exact ⟨rfl, by rw [hsnd]; simp [log_cost], rfl⟩

/-- Witness for C3: a concrete item whose embedding step fails still
gets its cost entry appended, as the first effect, with no item
persisted. -/
theorem claim3_cost_logged_first_witness :
    (processOne true 2 0
        (some (⟨"s", [], [], "f", 0, []⟩, ⟨"i", "m", 3, 4, 1/100, 0⟩))
        (fun _ => none) "em" ⟨⟨[], [], [], []⟩, []⟩
        ⟨"i", .rss, "sn", "http://u", none, "c", none, 0, 0, "en"⟩).2.1.sqlite.costLog
      = [] ++ [⟨"i", "m", 3, 4, 1/100, 0⟩] ∧
    (processOne true 2 0
        (some (⟨"s", [], [], "f", 0, []⟩, ⟨"i", "m", 3, 4, 1/100, 0⟩))
        (fun _ => none) "em" ⟨⟨[], [], [], []⟩, []⟩
        ⟨"i", .rss, "sn", "http://u", none, "c", none, 0, 0, "en"⟩).2.2.head?
      = some (.logCost ⟨"i", "m", 3, 4, 1/100, 0⟩) ∧
    (processOne true 2 0
        (some (⟨"s", [], [], "f", 0, []⟩, ⟨"i", "m", 3, 4, 1/100, 0⟩))
        (fun _ => none) "em" ⟨⟨[], [], [], []⟩, []⟩
        ⟨"i", .rss, "sn", "http://u", none, "c", none, 0, 0, "en"⟩).1 = none := by
  have h := claim3_cost_logged_first 2 0 ⟨"s", [], [], "f", 0, []⟩
    ⟨"i", "m", 3, 4, 1/100, 0⟩ (fun _ => none) "em" ⟨⟨[], [], [], []⟩, []⟩
    ⟨"i", .rss, "sn", "http://u", none, "c", none, 0, 0, "en"⟩ (by decide)
  exact ⟨h.1, h.2.1, (h.2.2.1 rfl).1⟩

/-- C6: when the rolling window returns fewer vector ids than
min_cluster_size, the run yields no clusters and leaves all prior
stored state unchanged: no cluster rows, memberships, item cluster
fields or cluster statuses change, and the vector store is untouched. -/
theorem claim6_small_window_noop (cfg : ClusteringConfig) (now : Nat)
    (hdbscan : List (List ℚ) → List Int)
    (labeler : List EnrichedItem → String × String)
    (freshIds : Nat → String) (st : PipelineState)
    (h : (get_all_vectors st.vectors
        (some (now - cfg.rolling_window_days * usPerDay))).1.length <
        cfg.min_cluster_size) :
    run cfg now hdbscan labeler freshIds st = ([], st) ∧
    (run cfg now hdbscan labeler freshIds st).2.sqlite.clusters =
      st.sqlite.clusters ∧
    (run cfg now hdbscan labeler freshIds st).2.sqlite.memberships =
      st.sqlite.memberships ∧
    (run cfg now hdbscan labeler freshIds st).2.sqlite.items =
      st.sqlite.items ∧
    (run cfg now hdbscan labeler freshIds st).2.vectors = st.vectors := by
  have key : run cfg now hdbscan labeler freshIds st = ([], st) := by
    unfold run
    rw [if_pos h]
  exact ⟨key, by rw [key], by rw [key], by rw [key], by rw [key]⟩

/-- Witness for C6: a store holding one prior cluster, one membership
and an items row, with only two window points, is returned untouched
with no clusters. -/
theorem claim6_small_window_noop_witness :
    run ⟨5, 4, 30⟩ (40 * usPerDay) (fun _ => []) (fun _ => ("l", "s"))
      (fun _ => "fresh")
      ⟨⟨[⟨"i1", "rss", "f", "http://u", none, 20 * usPerDay, 20 * usPerDay,
          "en", "s", [], [], "fr", 0, [], "i1", "m", some "A", some "la",
          "haiku", 0, false⟩],
        [⟨"A", "la", "sa", 1, 5, 6, [], [], [], [], [], "active", none⟩],
        [⟨"i1", "A", 7⟩], []⟩,
       [⟨"i1", [1, 0], "rss", "f", 20 * usPerDay, "t", "s"⟩,
        ⟨"i2", [0, 1], "rss", "f", 21 * usPerDay, "t", "s"⟩]⟩ =
      ([],
       ⟨⟨[⟨"i1", "rss", "f", "http://u", none, 20 * usPerDay, 20 * usPerDay,
          "en", "s", [], [], "fr", 0, [], "i1", "m", some "A", some "la",
          "haiku", 0, false⟩],
        [⟨"A", "la", "sa", 1, 5, 6, [], [], [], [], [], "active", none⟩],
        [⟨"i1", "A", 7⟩], []⟩,
       [⟨"i1", [1, 0], "rss", "f", 20 * usPerDay, "t", "s"⟩,
        ⟨"i2", [0, 1], "rss", "f", 21 * usPerDay, "t", "s"⟩]⟩) :=
  (claim6_small_window_noop ⟨5, 4, 30⟩ (40 * usPerDay) (fun _ => [])
    (fun _ => ("l", "s")) (fun _ => "fresh") _ (by decide)).1

/-- The unordered-pair loop emits exactly the records characterised by
emitsPair. -/
theorem mem_detectClusterPairs (threshold : ℝ) (c : NarrativeCluster)
    (subs : List (String × List ℚ)) (rec : DivergenceRecord) :
    rec ∈ detectClusterPairs threshold c subs ↔
      emitsPair threshold c subs rec := by
  unfold detectClusterPairs emitsPair
  rw [List.mem_flatMap]
  constructor
  · rintro ⟨i, hir, hmem⟩
    have hi : i < subs.length := List.mem_range.1 hir
    rw [List.mem_filterMap] at hmem
    obtain ⟨j, hjm, hj_eq⟩ := hmem
    rw [List.mem_filter, List.mem_range] at hjm
    obtain ⟨hj, hij⟩ := hjm
    have hij2 : i < j := of_decide_eq_true hij
    rw [List.getElem?_eq_getElem hi, List.getElem?_eq_getElem hj] at hj_eq
    rcases hpi : subs[i] with ⟨sa, va⟩
    rcases hpj : subs[j] with ⟨sb, vb⟩
    rw [hpi, hpj] at hj_eq
    dsimp only at hj_eq
    by_cases hcd : cosDist va vb > threshold
    · rw [if_pos hcd] at hj_eq
      refine ⟨i, j, hi, hj, hij2, ?_, ?_⟩
      · rw [hpi, hpj]
        exact hcd
      · rw [hpi, hpj]
        exact (Option.some.inj hj_eq).symm
    · rw [if_neg hcd] at hj_eq
      exact Option.noConfusion hj_eq
  · rintro ⟨i, j, hi, hj, hij, hgt, hrec⟩
    refine ⟨i, List.mem_range.2 hi, ?_⟩
    rw [List.mem_filterMap]
    refine ⟨j, ?_, ?_⟩
    · rw [List.mem_filter, List.mem_range]
      exact ⟨hj, decide_eq_true hij⟩
    · rw [List.getElem?_eq_getElem hi, List.getElem?_eq_getElem hj]
      rcases hpi : subs[i] with ⟨sa, va⟩
      rcases hpj : subs[j] with ⟨sb, vb⟩
      rw [hpi, hpj] at hgt hrec
      dsimp only at hgt hrec ⊢
      rw [if_pos hgt, hrec]

/-- One-cluster emission characterisation: the size guards plus the
pair-level condition. -/
theorem mem_detectCluster (threshold : ℝ) (s : Store) (vs : List VPoint)
    (c : NarrativeCluster) (rec : DivergenceRecord) :
    rec ∈ detectCluster threshold s vs c ↔
      (3 ≤ (get_items_by_cluster_rows s c.id).length ∧
       2 ≤ (clusterSourceGroups s c.id).length ∧
       2 ≤ (clusterSubCentroids s vs c.id).length ∧
       emitsPair threshold c (clusterSubCentroids s vs c.id) rec) := by
  unfold detectCluster
  split_ifs with h1 h2 h3
  · simp only [List.not_mem_nil, false_iff]
    rintro ⟨h, _⟩
    omega
  · simp only [List.not_mem_nil, false_iff]
    rintro ⟨_, h, _⟩
    omega
  · simp only [List.not_mem_nil, false_iff]
    rintro ⟨_, _, h, _⟩
    omega
  · rw [mem_detectClusterPairs]
    constructor
    · intro h
      exact ⟨by omega, by omega, by omega, h⟩
    · rintro ⟨_, _, _, h⟩
      exact h

/-- A two-family sub-centroid list with divergent centroids yields
exactly one record. -/
theorem detectClusterPairs_pair (threshold : ℝ) (c : NarrativeCluster)
    (sa : String) (va : List ℚ) (sb : String) (vb : List ℚ)
    (h : cosDist va vb > threshold) :
    detectClusterPairs threshold c [(sa, va), (sb, vb)] =
      [⟨c.id, c.label, sa, sb, round4 (cosDist va vb)⟩] := by
  unfold detectClusterPairs
  simp [List.range_succ, h]

/-- C9: the divergence detector emits a record exactly for every
cluster with at least 3 members and at least 2 source families with
stored vectors, and every unordered family pair i < j whose per-family
mean vectors have cosine distance 1 - dot/(norm product + 1e-10) above
the threshold, carrying the cluster id and label, the two family names
and the distance rounded to 4 decimals; in particular, for 5 rss
members at the unit vector u and 5 gdelt members at -u with threshold
0.3, exactly one record is emitted, between rss and gdelt, with
cosine_distance exactly 2 after rounding. -/
theorem claim9_divergence :
    (∀ (threshold : ℝ) (clusters : List NarrativeCluster) (s : Store)
        (vs : List VPoint) (rec : DivergenceRecord),
      rec ∈ detect threshold clusters s vs ↔
        ∃ c ∈ clusters,
          3 ≤ (get_items_by_cluster_rows s c.id).length ∧
          2 ≤ (clusterSourceGroups s c.id).length ∧
          2 ≤ (clusterSubCentroids s vs c.id).length ∧
          emitsPair threshold c (clusterSubCentroids s vs c.id) rec) ∧
    detect (3/10) [exC9cluster] exC9store exC9vecs =
      [⟨"c1", "L", "rss", "gdelt", 2⟩] := by
  constructor
  · intro threshold clusters s vs rec
    unfold detect
    rw [List.mem_flatMap]
    constructor
    · rintro ⟨c, hc, hm⟩
      exact ⟨c, hc, (mem_detectCluster _ _ _ _ _).1 hm⟩
    · rintro ⟨c, hc, hm⟩
      exact ⟨c, hc, (mem_detectCluster _ _ _ _ _).2 hm⟩
  · have hrows : get_items_by_cluster_rows exC9store exC9cluster.id =
        exC9store.items := by
      unfold get_items_by_cluster_rows
      rw [show (exC9store.items.filter fun r =>
          r.cluster_id == some exC9cluster.id && !r.archived) =
          exC9store.items from rfl]
      exact List.mergeSort_of_sorted (by decide)
    have hgroups : clusterSourceGroups exC9store exC9cluster.id =
        [("rss", ["r1", "r2", "r3", "r4", "r5"]),
         ("gdelt", ["g1", "g2", "g3", "g4", "g5"])] := by
      unfold clusterSourceGroups
      rw [hrows]
      rfl
    have hmean1 : meanVec [[1, 0], [1, 0], [1, 0], [1, 0], [1, 0]] = [1, 0] := by
      norm_num [meanVec, addVec]
    have hmean2 : meanVec [[-1, 0], [-1, 0], [-1, 0], [-1, 0], [-1, 0]] =
        [-1, 0] := by
      norm_num [meanVec, addVec]
    have hsubs0 : clusterSubCentroids exC9store exC9vecs exC9cluster.id =
        [("rss", meanVec [[1, 0], [1, 0], [1, 0], [1, 0], [1, 0]]),
         ("gdelt", meanVec [[-1, 0], [-1, 0], [-1, 0], [-1, 0], [-1, 0]])] := by
      unfold clusterSubCentroids
      rw [hgroups]
      rfl
    have hsubs : clusterSubCentroids exC9store exC9vecs exC9cluster.id =
        [("rss", [1, 0]), ("gdelt", [-1, 0])] := by
      rw [hsubs0, hmean1, hmean2]
    have hd : dotQ [1, 0] [-1, 0] = -1 := by norm_num [dotQ]
    have hs1 : sumSq [1, 0] = 1 := by norm_num [sumSq]
    have hs2 : sumSq [(-1 : ℚ), 0] = 1 := by norm_num [sumSq]
    have hcos : cosDist [1, 0] [-1, 0] = 20000000001/10000000001 := by
      unfold cosDist normR
      rw [hd, hs1, hs2]
      push_cast
      rw [Real.sqrt_one]
      norm_num
    have hgt : cosDist [1, 0] [-1, 0] > (3/10 : ℝ) := by
      rw [hcos]
      norm_num
    have hfl : ⌊(20000000001/10000000001 : ℝ) * 10000⌋ = 19999 := by
      rw [Int.floor_eq_iff]
      norm_num
    have hfr : Int.fract ((20000000001/10000000001 : ℝ) * 10000) ≠ 1/2 := by
      rw [← Int.self_sub_floor, hfl]
      norm_num
    have hrd : round ((20000000001/10000000001 : ℝ) * 10000) = 20000 := by
      rw [round_eq, Int.floor_eq_iff]
      norm_num
    have hround : round4 (cosDist [1, 0] [-1, 0]) = 2 := by
      unfold round4 pyRound
      rw [hcos, if_neg hfr, hrd]
      norm_num
    unfold detect
    rw [List.flatMap_cons, List.flatMap_nil, List.append_nil]
    unfold detectCluster
    rw [hrows, hgroups, hsubs, if_neg (by decide), if_neg (by decide),
      if_neg (by norm_num), detectClusterPairs_pair _ _ _ _ _ _ hgt, hround]
    rfl

end AmonHen
